import Mathlib

/-!
Verification of the DynamicStruct repository (files
`dynamicstruct/schemas.py` and `dynamicstruct/dynamicstruct.py`)
against its natural-language specification.

The two source files are shallowly embedded below: the dataclass
`DynamicStructField` becomes a Lean structure, the instance state of a
`DynamicStruct` (its ordered `_fields` mapping) becomes a list of field
records, and every method becomes a pure function.  Methods that mutate
the instance return the updated state, paired with the exception they
raise (if any), so that mutations performed before an exception is
raised remain visible, exactly as in Python.  The semantics of the
`struct` module calls (`struct.calcsize`, `struct.unpack`) on the format
strings the source composes is embedded directly on the per-field
(count, code) segments that make up those strings.
-/

/-- Values a field can hold: Python int or bytes.  The dataclass in
`schemas.py` declares `default: Union[int, bytes]` and
`value: Union[int, bytes, None]`; a byte string is modelled as the list
of its byte values. -/
inductive Value where
  | int (n : Int)
  | bytes (bs : List Nat)
deriving DecidableEq, Repr

/-- Python truthiness of a field value: the int 0 and the empty byte
string are falsy, everything else is truthy. -/
def Value.truthy : Value → Bool
  | .int n => n ≠ 0
  | .bytes bs => !bs.isEmpty

/-- Python len() applied to a field's value slot: defined on bytes only
(len of an int, or of None, raises TypeError). -/
def pyLen : Option Value → Option Nat
  | some (.bytes bs) => some bs.length
  | _ => none

/-- Embeds the dataclass `DynamicStructField` of `schemas.py`, with the
same components and the same defaults. -/
structure DynamicStructField where
  name : String
  struct : Char := 'B'
  length : Int := 1
  default : Value := Value.int 0
  value : Option Value := none
  match_length : Bool := false
deriving DecidableEq, Repr

/-- The exceptions the source can raise: NameError for unknown attribute
names, ValueError both for the one-match-length-field rule (bad schema)
and for validation failure, struct.error for malformed format strings
and buffers, TypeError for ill-typed built-in calls. -/
inductive DSError where
  | nameError (name : String)
  | badSchema
  | structError
  | validationFailed
  | typeError
deriving DecidableEq, Repr

/-- Byte width of one unit of a struct-format code under the `<`
(little-endian, no padding) convention, for the codes the data model can
represent: the integer codes and the byte-string code `s` (whose count
is a byte count, one byte per unit).  Codes outside this set make the
`struct` module raise, embedded as `none`. -/
def unitSize : Char → Option Nat
  | 'b' => some 1
  | 'B' => some 1
  | 'h' => some 2
  | 'H' => some 2
  | 'i' => some 4
  | 'I' => some 4
  | 'q' => some 8
  | 'Q' => some 8
  | 's' => some 1
  | _ => none

/-- Little-endian value of a byte list. -/
def leNum : List Nat → Nat
  | [] => 0
  | b :: bs => b + 256 * leNum bs

/-- Codes decoded as signed (two's complement) integers. -/
def isSignedChar : Char → Bool
  | 'b' => true
  | 'h' => true
  | 'i' => true
  | 'q' => true
  | _ => false

/-- Two's-complement reinterpretation of an unsigned value of width `w`
bytes. -/
def toSigned (n : Nat) (w : Nat) : Int :=
  if (n : Int) < 2 ^ (8 * w - 1) then (n : Int) else (n : Int) - 2 ^ (8 * w)

/-- Decode one struct unit of code `c` and byte width `w` from the bytes
`bs`: code `s` yields the bytes themselves, the integer codes yield the
little-endian (un)signed value. -/
def decodeUnit (c : Char) (w : Nat) (bs : List Nat) : Value :=
  if c = 's' then Value.bytes bs
  else if isSignedChar c then Value.int (toSigned (leNum bs) w)
  else Value.int (leNum bs)

/-- Byte size of one `{count}{code}` segment of a format string, as
`struct.calcsize` computes it; `none` when the count is negative (the
rendered format string would contain a minus sign, a bad character) or
the code is unknown. -/
def segSize (s : Int × Char) : Option Nat :=
  match unitSize s.2 with
  | some w => if s.1 < 0 then none else some (s.1.toNat * w)
  | none => none

/-- Embeds `struct.calcsize` on the list of `{count}{code}` segments of
a format string (the leading `<` marker contributes no bytes). -/
def calcsize : List (Int × Char) → Option Nat
  | [] => some 0
  | s :: rest =>
    match segSize s, calcsize rest with
    | some a, some b => some (a + b)
    | _, _ => none

/-- The decode units a segment expands to: a count on code `s` is a byte
count producing a single unit, a count on any other code is a repetition
count producing that many units. -/
def segUnits (s : Int × Char) : List (Char × Nat) :=
  if s.2 = 's' then [('s', s.1.toNat)]
  else List.replicate s.1.toNat (s.2, (unitSize s.2).getD 0)

/-- Total byte width of a list of decode units. -/
def sumW (us : List (Char × Nat)) : Nat := (us.map (fun u => u.2)).sum

/-- Left-to-right decoding of a buffer against a list of units;
succeeds exactly when the buffer length matches the total width. -/
def decodeGo : List (Char × Nat) → List Nat → Option (List Value)
  | [], [] => some []
  | [], _ :: _ => none
  | u :: us, buf =>
    if u.2 ≤ buf.length then
      (decodeGo us (buf.drop u.2)).map
        (fun vs => decodeUnit u.1 u.2 (buf.take u.2) :: vs)
    else none

/-- Embeds `struct.unpack(fmt, buffer)` on the segments of `fmt`:
raises (`none`) when the format is malformed or the buffer length does
not equal `calcsize fmt`, otherwise returns one decoded value per
unit. -/
def structUnpack (segs : List (Int × Char)) (buf : List Nat) : Option (List Value) :=
  match calcsize segs with
  | some _ => decodeGo (List.flatten (segs.map segUnits)) buf
  | none => none

/-- Embeds the per-instance state of a `DynamicStruct`: the ordered
`_fields` mapping built in `__init__` (keyed by each record's `name`
component). -/
structure DynamicStruct where
  fields : List DynamicStructField
deriving DecidableEq, Repr

/-- Source: class attribute `endian_struct = "<"`. -/
def DynamicStruct.endian_struct : String := "<"

/-- Embeds the property `DynamicStruct.struct`: the endian marker
followed by one `{length}{code}` segment per field in declaration order,
the length omitted exactly when it is 1. -/
def DynamicStruct.struct (d : DynamicStruct) : String :=
  DynamicStruct.endian_struct ++
    String.join (d.fields.map (fun f =>
      (if f.length ≠ 1 then toString f.length else "") ++ String.singleton f.struct))

/-- The `{count}{code}` segments of the format string `d.struct`
composes, in order. -/
def DynamicStruct.segs (d : DynamicStruct) : List (Int × Char) :=
  d.fields.map (fun f => (f.length, f.struct))

/-- Embeds the property `DynamicStruct.size`, i.e.
`struct.calcsize(self.struct)`. -/
def DynamicStruct.size (d : DynamicStruct) : Option Nat :=
  calcsize d.segs

/-- Lookup of a declared field by name (the `name in self._fields` test
and `self._fields[name]` access of the source). -/
def findField (d : DynamicStruct) (name : String) : Option DynamicStructField :=
  d.fields.find? (fun f => f.name = name)

/-- Embeds `DynamicStruct.__getattr__`: for a declared name it returns
`value or default` (Python `or`: the default is returned whenever the
stored value is None or falsy), otherwise it raises NameError. -/
def DynamicStruct.getattr (d : DynamicStruct) (name : String) : Except DSError Value :=
  match findField d name with
  | some f =>
    .ok (match f.value with
      | some v => if v.truthy then v else f.default
      | none => f.default)
  | none => .error (DSError.nameError name)

/-- Embeds `DynamicStruct.__setattr__`: stores the value on the declared
field of that name, or raises NameError. -/
def DynamicStruct.setattr (d : DynamicStruct) (name : String) (v : Value) :
    Except DSError DynamicStruct :=
  if d.fields.any (fun f => f.name = name) then
    .ok ⟨d.fields.map (fun f => if f.name = name then { f with value := some v } else f)⟩
  else
    .error (DSError.nameError name)

/-- Embeds the property `DynamicStruct.values`: every declared name
paired with its effective value, read through `__getattr__`. -/
def DynamicStruct.values (d : DynamicStruct) : List (String × Value) :=
  d.fields.map (fun f =>
    (f.name, match f.value with
      | some v => if v.truthy then v else f.default
      | none => f.default))

/-- Embeds `DynamicStruct.__init__`: the class-level template list is
cloned entry by entry with `dataclasses.replace` (a fresh record with
identical components, so the pure state equals the template list; the
aliasing discipline itself is verified in the heap model below), then
each keyword argument is applied through `__setattr__`. -/
def DynamicStruct.init (template : List DynamicStructField)
    (kwargs : List (String × Value)) : Except DSError DynamicStruct :=
  kwargs.foldlM (fun d kv => DynamicStruct.setattr d kv.1 kv.2) ⟨template⟩

/-- Loop body of `_set_match_length_pack`: walks the fields in order and
sets each match-length field's length to `len(field.value)`; `len` of a
non-bytes value raises TypeError, leaving earlier mutations in place. -/
def smlpGo : List DynamicStructField → List DynamicStructField × Option DSError
  | [] => ([], none)
  | f :: fs =>
    if f.match_length then
      match pyLen f.value with
      | none => (f :: fs, some DSError.typeError)
      | some n =>
        let r := smlpGo fs
        ({ f with length := (n : Int) } :: r.1, r.2)
    else
      let r := smlpGo fs
      (f :: r.1, r.2)

/-- Embeds `DynamicStruct._set_match_length_pack`. -/
def DynamicStruct.set_match_length_pack (d : DynamicStruct) :
    DynamicStruct × Option DSError :=
  (⟨(smlpGo d.fields).1⟩, (smlpGo d.fields).2)

/-- Sets the length of every match-length field to `n` (the method below
mutates the single match-length field; at most one field matches when it
is reached). -/
def setMatchLen (fs : List DynamicStructField) (n : Int) : List DynamicStructField :=
  fs.map (fun f => if f.match_length then { f with length := n } else f)

/-- Embeds `DynamicStruct._set_match_length_unpack`: with more than one
match-length field it raises ValueError (bad schema); with exactly one
it first sets that field's length to 0, reads `self.size` (which can
itself raise struct.error, after the length was already zeroed), and
then sets the length to `buffer_length - size`. -/
def DynamicStruct.set_match_length_unpack (d : DynamicStruct)
    (buffer_length : Int) : DynamicStruct × Option DSError :=
  let mfs := d.fields.filter (fun f => f.match_length)
  if 1 < mfs.length then (d, some DSError.badSchema)
  else if mfs.length = 1 then
    let d1 : DynamicStruct := ⟨setMatchLen d.fields 0⟩
    match d1.size with
    | none => (d1, some DSError.structError)
    | some sz => (⟨setMatchLen d1.fields (buffer_length - (sz : Int))⟩, none)
  else (d, none)

/-- Embeds the default `DynamicStruct.is_valid`: always true. -/
def DynamicStruct.is_valid (_ : DynamicStruct) : Bool := true

/-- Embeds the default `DynamicStruct.on_pack`: a no-op. -/
def DynamicStruct.on_pack (d : DynamicStruct) : DynamicStruct := d

/-- Embeds `DynamicStruct.pack`.  Its first statement is
`self._set_match_length()`; the class defines no attribute of that name
(the methods that exist are `_set_length`, `_set_match_length_pack` and
`_set_match_length_unpack`), so Python attribute lookup falls through to
`__getattr__`, which raises NameError unless a field is literally named
`"_set_match_length"` — and in that case the looked-up value is an int
or bytes, so the call raises TypeError.  Either way `pack` raises before
mutating anything, and its remaining statements (`self.on_pack()` and
`struct.pack(self.struct, *self.values)`, which would spread the values
dict and hence pass the field names) are unreachable. -/
def DynamicStruct.pack (d : DynamicStruct) : DynamicStruct × Option DSError :=
  match d.getattr "_set_match_length" with
  | .error e => (d, some e)
  | .ok _ => (d, some DSError.typeError)

/-- The `zip` assignment loop of `unpack`: pairs fields with decoded
values positionally, truncating at the shorter list, and stores each
value on its paired field. -/
def assignValues : List DynamicStructField → List Value → List DynamicStructField
  | [], _ => []
  | f :: fs, [] => f :: fs
  | f :: fs, v :: vs => { f with value := some v } :: assignValues fs vs

/-- Embeds `DynamicStruct.unpack(buffer, validate)`, parametrised by the
instance's `is_valid` hook (the class default is `DynamicStruct.is_valid`):
resolve the match-length field from the buffer length, decode the buffer
with `struct.unpack`, assign the decoded units to the fields by `zip`,
and finally, when `validate` is set and the hook rejects the populated
state, raise ValueError — the assigned values stay in place. -/
def DynamicStruct.unpack (hook : DynamicStruct → Bool) (d : DynamicStruct)
    (buffer : List Nat) (validate : Bool) : DynamicStruct × Option DSError :=
  match DynamicStruct.set_match_length_unpack d (buffer.length : Int) with
  | (d1, some e) => (d1, some e)
  | (d1, none) =>
    match structUnpack d1.segs buffer with
    | none => (d1, some DSError.structError)
    | some vs =>
      let d2 : DynamicStruct := ⟨assignValues d1.fields vs⟩
      if validate && !(hook d2) then (d2, some DSError.validationFailed)
      else (d2, none)

/-- Embeds the classmethod `DynamicStruct.from_buffer`: construct a
fresh instance from the template with no keyword arguments, then
delegate to `unpack`. -/
def DynamicStruct.from_buffer (hook : DynamicStruct → Bool)
    (template : List DynamicStructField) (buffer : List Nat) (validate : Bool) :
    DynamicStruct × Option DSError :=
  DynamicStruct.unpack hook ⟨template⟩ buffer validate

/-- Width in bytes a field occupies when it decodes to exactly one unit:
its count for the byte-string code, otherwise the width of its code. -/
def fieldWidth (f : DynamicStructField) : Nat :=
  if f.struct = 's' then f.length.toNat else (unitSize f.struct).getD 0

/-- The single decode unit of a one-unit field. -/
def fieldUnit (f : DynamicStructField) : Char × Nat := (f.struct, fieldWidth f)

/-- Modelled from the spec for claim C3: deserialize the buffer strictly
left to right, one decoded unit per field, assigning each decoded unit
to its own field's value in declaration order, and fail unless the
buffer is exhausted exactly. -/
def specDecode : List DynamicStructField → List Nat → Option (List DynamicStructField)
  | [], [] => some []
  | [], _ :: _ => none
  | f :: fs, buf =>
    if fieldWidth f ≤ buf.length then
      (specDecode fs (buf.drop (fieldWidth f))).map
        (fun gs =>
          { f with value := some (decodeUnit f.struct (fieldWidth f) (buf.take (fieldWidth f))) } :: gs)
    else none

/-- Modelled from the spec for claim C9: the byte-order marker followed
by, for each field in declaration order, its repeat count (omitted when
exactly 1) and its encoding character. -/
def layoutSpec (d : DynamicStruct) : String :=
  "<" ++ String.join (d.fields.map (fun f =>
    (if f.length = 1 then "" else toString f.length) ++ String.singleton f.struct))

/-- Modelled from the spec for claim C9: the total byte length implied
by the layout, each field contributing its repeat count times the
primitive size of its encoding character (one byte per unit of the
byte-string code), with no alignment padding. -/
def impliedSizeSpec (d : DynamicStruct) : Option Nat :=
  if d.fields.all (fun f => decide (0 ≤ f.length) && (unitSize f.struct).isSome) then
    some ((d.fields.map (fun f => f.length.toNat * (unitSize f.struct).getD 0)).sum)
  else none

/-!
Heap model for claim C10.  In Python the class-level `fields` list and
every instance's `_fields` dictionary hold references to
`DynamicStructField` objects living on a shared heap, and every method
mutates those objects in place; `__init__` allocates, with
`dataclasses.replace`, a fresh object per template entry.  The model
below makes that explicit: a heap maps cell identifiers to field
records, an instance is the ordered list of identifiers of its private
clones, and each operation reads its instance's records, runs the pure
method above, and writes the resulting records back to the same cells.
-/

/-- A heap of field records: an allocation counter and a store from
cell identifier to record. -/
structure Heap where
  nextId : Nat
  store : List (Nat × DynamicStructField)
deriving DecidableEq, Repr

/-- Read the record in cell `i`. -/
def Heap.get (h : Heap) (i : Nat) : Option DynamicStructField :=
  (h.store.find? (fun p => p.1 = i)).map (fun p => p.2)

/-- Overwrite the record in cell `i` (the in-place mutation of a Python
object). -/
def Heap.set (h : Heap) (i : Nat) (f : DynamicStructField) : Heap :=
  ⟨h.nextId, h.store.map (fun p => if p.1 = i then (i, f) else p)⟩

/-- Allocate a fresh cell holding `f` (what `dataclasses.replace`
does: a brand-new object with the given components). -/
def Heap.alloc (h : Heap) (f : DynamicStructField) : Heap × Nat :=
  (⟨h.nextId + 1, (h.nextId, f) :: h.store⟩, h.nextId)

/-- Read the records of an instance's cells, in order. -/
def readFields (h : Heap) : List Nat → Option (List DynamicStructField)
  | [] => some []
  | i :: is =>
    match h.get i, readFields h is with
    | some f, some fs => some (f :: fs)
    | _, _ => none

/-- Write records back to an instance's cells, positionally. -/
def writeFields (h : Heap) : List Nat → List DynamicStructField → Heap
  | [], _ => h
  | _ :: _, [] => h
  | i :: is, f :: fs => writeFields (h.set i f) is fs

/-- Embeds `DynamicStruct.__init__`'s cloning loop on the heap: each
template cell's record is copied into a freshly allocated cell, and the
new instance is the list of those fresh cells. -/
def initH (h : Heap) : List Nat → Heap × List Nat
  | [] => (h, [])
  | i :: is =>
    match h.get i with
    | some f =>
      let a := h.alloc f
      let r := initH a.1 is
      (r.1, a.2 :: r.2)
    | none =>
      let r := initH h is
      (r.1, r.2)

/-- The operations claim C10 quantifies over: a field assignment, an
unpack call, and a pack call. -/
inductive Op where
  | setf (name : String) (v : Value)
  | unpackOp (buffer : List Nat) (validate : Bool)
  | packOp
deriving DecidableEq, Repr

/-- Run one operation on the instance whose cells are `ids`: read the
instance's records, run the corresponding pure method, and write the
resulting records back to the same cells (a raising operation leaves in
place exactly the mutations the method performed before raising, which
the pure methods already report in their returned state). -/
def runOp (h : Heap) (ids : List Nat) : Op → Heap
  | .setf name v =>
    match readFields h ids with
    | some fs =>
      match DynamicStruct.setattr ⟨fs⟩ name v with
      | .ok d => writeFields h ids d.fields
      | .error _ => h
    | none => h
  | .unpackOp buffer validate =>
    match readFields h ids with
    | some fs =>
      writeFields h ids (DynamicStruct.unpack DynamicStruct.is_valid ⟨fs⟩ buffer validate).1.fields
    | none => h
  | .packOp =>
    match readFields h ids with
    | some fs => writeFields h ids (DynamicStruct.pack ⟨fs⟩).1.fields
    | none => h

/-- Run a sequence of operations on one instance. -/
def runOps (h : Heap) (ids : List Nat) : List Op → Heap
  | [] => h
  | op :: ops => runOps (runOp h ids op) ids ops

/-! Helper lemmas about the struct-format semantics. -/

theorem calcsize_append (xs ys : List (Int × Char)) :
    calcsize (xs ++ ys) =
      match calcsize xs, calcsize ys with
      | some a, some b => some (a + b)
      | _, _ => none := by
  induction xs with
  | nil =>
    simp only [List.nil_append, calcsize]
    cases calcsize ys <;> simp
  | cons s rest ih =>
    simp only [List.cons_append, calcsize]
    rcases h1 : segSize s with _ | a <;> rcases h2 : calcsize rest with _ | b <;>
      rcases h3 : calcsize ys with _ | c <;> simp [ih, h1, h2, h3, Nat.add_assoc]

theorem sumW_nil : sumW [] = 0 := rfl

theorem sumW_cons (u : Char × Nat) (us : List (Char × Nat)) :
    sumW (u :: us) = u.2 + sumW us := by
  simp [sumW]

theorem sumW_append (us vs : List (Char × Nat)) :
    sumW (us ++ vs) = sumW us + sumW vs := by
  simp [sumW]

theorem sumW_replicate (n : Nat) (u : Char × Nat) :
    sumW (List.replicate n u) = n * u.2 := by
  induction n with
  | zero => simp [sumW]
  | succ k ih => simp [List.replicate_succ, sumW_cons, ih, Nat.succ_mul, Nat.add_comm]

theorem sumW_segUnits (s : Int × Char) (a : Nat) (h : segSize s = some a) :
    sumW (segUnits s) = a := by
  unfold segSize at h
  unfold segUnits
  by_cases hs : s.2 = 's'
  · simp only [hs, if_pos]
    simp [hs, unitSize] at h
    rcases h with ⟨h1, h2⟩
    simp [sumW, ← h2]
  · simp only [if_neg hs]
    rcases hw : unitSize s.2 with _ | w
    · rw [hw] at h; simp at h
    · rw [hw] at h
      by_cases hneg : s.1 < 0
      · simp [hneg] at h
      · simp [hneg] at h
        rw [sumW_replicate]
        simp [hw, ← h]

theorem sumW_calcsize (segs : List (Int × Char)) (S : Nat)
    (h : calcsize segs = some S) :
    sumW (List.flatten (segs.map segUnits)) = S := by
  induction segs generalizing S with
  | nil => simp [calcsize] at h; simp [sumW, ← h]
  | cons s rest ih =>
    unfold calcsize at h
    rcases h1 : segSize s with _ | a <;> rw [h1] at h
    · simp at h
    · rcases h2 : calcsize rest with _ | b <;> rw [h2] at h
      · simp at h
      · simp only [Option.some.injEq] at h
        simp only [List.map_cons, List.flatten_cons, sumW_append,
          sumW_segUnits s a h1, ih b h2, h]


theorem decodeGo_isSome (us : List (Char × Nat)) (buf : List Nat) :
    (decodeGo us buf).isSome = true ↔ buf.length = sumW us := by
  induction us generalizing buf with
  | nil => cases buf <;> simp [decodeGo, sumW]
  | cons u rest ih =>
    simp only [sumW_cons]
    by_cases h : u.2 ≤ buf.length
    · have h3 := ih (buf.drop u.2)
      rw [List.length_drop] at h3
      simp only [decodeGo, if_pos h, Option.isSome_map']
      rw [h3]
      omega
    · simp only [decodeGo, if_neg h, Option.isSome_none, Bool.false_eq_true, false_iff]
      omega

theorem decodeGo_length (us : List (Char × Nat)) (buf : List Nat)
    (vs : List Value) (h : decodeGo us buf = some vs) :
    vs.length = us.length := by
  induction us generalizing buf vs with
  | nil =>
    cases buf with
    | nil =>
      simp only [decodeGo, Option.some.injEq] at h
      simp [← h]
    | cons b bs => simp [decodeGo] at h
  | cons u rest ih =>
    by_cases hle : u.2 ≤ buf.length
    · simp only [decodeGo, if_pos hle] at h
      rcases h2 : decodeGo rest (buf.drop u.2) with _ | ws <;> rw [h2] at h
      · simp at h
      · simp only [Option.map_some', Option.some.injEq] at h
        simp [← h, ih _ _ h2]
    · simp only [decodeGo, if_neg hle] at h
      exact absurd h (by simp)

theorem decodeGo_snoc_s (us : List (Char × Nat)) (L : Nat) (buf : List Nat)
    (vs : List Value) (h : decodeGo us (buf.take (sumW us)) = some vs)
    (hlen : buf.length = sumW us + L) :
    decodeGo (us ++ [('s', L)]) buf = some (vs ++ [Value.bytes (buf.drop (sumW us))]) := by
  induction us generalizing buf vs with
  | nil =>
    simp only [sumW_nil, List.take_zero, List.drop_zero] at h hlen ⊢
    simp only [decodeGo, Option.some.injEq] at h
    simp only [← h]
    simp only [List.nil_append, decodeGo]
    rw [if_pos (by omega)]
    have hd : buf.drop L = [] := List.drop_eq_nil_of_le (by omega)
    have ht : buf.take L = buf := List.take_of_length_le (by omega)
    simp [hd, ht, decodeGo, decodeUnit]
  | cons u rest ih =>
    have hw : u.2 ≤ buf.length := by
      rw [hlen, sumW_cons]; omega
    have hwt : u.2 ≤ (List.take (sumW (u :: rest)) buf).length := by
      rw [List.length_take, sumW_cons]
      omega
    simp only [decodeGo, if_pos hwt] at h
    rcases h2 : decodeGo rest ((List.take (sumW (u :: rest)) buf).drop u.2) with _ | ws <;>
        rw [h2] at h
    · simp at h
    · simp only [Option.map_some', Option.some.injEq] at h
      have hdt : (List.take (sumW (u :: rest)) buf).drop u.2
          = (buf.drop u.2).take (sumW rest) := by
        rw [List.drop_take, sumW_cons, Nat.add_sub_cancel_left]
      rw [hdt] at h2
      have hlen2 : (buf.drop u.2).length = sumW rest + L := by
        rw [List.length_drop, hlen, sumW_cons]; omega
      have hrec := ih (buf.drop u.2) ws h2 hlen2
      have htt : (List.take (sumW (u :: rest)) buf).take u.2 = buf.take u.2 := by
        rw [List.take_take, sumW_cons]
        congr 1
        omega
      have hdd : (buf.drop u.2).drop (sumW rest) = buf.drop (sumW (u :: rest)) := by
        rw [List.drop_drop, sumW_cons, Nat.add_comm]
      have hgoal : decodeGo ((u :: rest) ++ [('s', L)]) buf
          = (decodeGo (rest ++ [('s', L)]) (buf.drop u.2)).map
              (fun zs => decodeUnit u.1 u.2 (buf.take u.2) :: zs) := by
        simp only [List.cons_append, decodeGo, if_pos hw]
        rfl
      rw [hgoal, hrec, Option.map_some', ← h, htt, hdd]
      simp

theorem specDecode_eq_decodeGo (fs : List DynamicStructField) (buf : List Nat) :
    specDecode fs buf = (decodeGo (fs.map fieldUnit) buf).map (assignValues fs) := by
  induction fs generalizing buf with
  | nil =>
    cases buf with
    | nil => simp [specDecode, decodeGo, assignValues]
    | cons b bs => simp [specDecode, decodeGo]
  | cons f rest ih =>
    by_cases h : fieldWidth f ≤ buf.length
    · have hstep : decodeGo ((f :: rest).map fieldUnit) buf
          = (decodeGo (rest.map fieldUnit) (buf.drop (fieldWidth f))).map
              (fun zs => decodeUnit f.struct (fieldWidth f) (buf.take (fieldWidth f)) :: zs) := by
        simp only [List.map_cons, decodeGo, fieldUnit, if_pos h]
      rw [hstep]
      simp only [specDecode, if_pos h, ih, Option.map_map]
      rcases h2 : decodeGo (rest.map fieldUnit) (buf.drop (fieldWidth f)) with _ | ws
      · simp
      · simp only [Option.map_some', Function.comp_apply]
        rfl
    · have hstep : decodeGo ((f :: rest).map fieldUnit) buf = none := by
        simp only [List.map_cons, decodeGo, fieldUnit, if_neg h]
      rw [hstep]
      simp [specDecode, if_neg h]

theorem oneUnit_segUnits (fs : List DynamicStructField)
    (h : ∀ f ∈ fs, (f.struct = 's' ∨ f.length = 1)) :
    List.flatten ((fs.map (fun f => ((f.length, f.struct) : Int × Char))).map segUnits) =
      fs.map fieldUnit := by
  induction fs with
  | nil => simp
  | cons f rest ih =>
    have hf := h f (List.mem_cons_self f rest)
    have hrest := ih (fun g hg => h g (List.mem_cons_of_mem f hg))
    have hone : segUnits ((f.length, f.struct) : Int × Char) = [fieldUnit f] := by
      by_cases hs : f.struct = 's'
      · simp [segUnits, hs, fieldUnit, fieldWidth]
      · rcases hf with hs' | h1
        · exact absurd hs' hs
        · simp [segUnits, hs, fieldUnit, fieldWidth, h1, List.replicate_one]
    simp only [List.map_cons, List.flatten_cons, hone, hrest, List.singleton_append]

theorem assignValues_append (xs ys : List DynamicStructField)
    (vs ws : List Value) (h : vs.length = xs.length) :
    assignValues (xs ++ ys) (vs ++ ws) = assignValues xs vs ++ assignValues ys ws := by
  induction xs generalizing vs with
  | nil =>
    cases vs with
    | nil => simp [assignValues]
    | cons v vt => simp at h
  | cons x xt ih =>
    cases vs with
    | nil => simp at h
    | cons v vt =>
      simp only [List.length_cons, Nat.succ.injEq] at h
      simp [assignValues, ih vt h]

theorem assignValues_length_eq (fs : List DynamicStructField) (vs : List Value)
    (h : vs.length = fs.length) :
    (assignValues fs vs).length = fs.length := by
  induction fs generalizing vs with
  | nil => simp [assignValues]
  | cons f ft ih =>
    cases vs with
    | nil => simp at h
    | cons v vt =>
      simp only [List.length_cons, Nat.succ.injEq] at h
      simp [assignValues, ih vt h]

/-! Lemmas about match-length resolution. -/

theorem no_match_filter (fs : List DynamicStructField)
    (h : ∀ f ∈ fs, f.match_length = false) :
    fs.filter (fun f => f.match_length) = [] := by
  rw [List.filter_eq_nil_iff]
  intro f hf
  simp [h f hf]

theorem no_match_resolution (fs : List DynamicStructField) (L : Int)
    (h : ∀ f ∈ fs, f.match_length = false) :
    DynamicStruct.set_match_length_unpack ⟨fs⟩ L = (⟨fs⟩, none) := by
  unfold DynamicStruct.set_match_length_unpack
  simp [no_match_filter fs h]

theorem one_match_filter (pre post : List DynamicStructField) (m : DynamicStructField)
    (hm : m.match_length = true)
    (hpre : ∀ f ∈ pre, f.match_length = false)
    (hpost : ∀ f ∈ post, f.match_length = false) :
    (pre ++ m :: post).filter (fun f => f.match_length) = [m] := by
  rw [List.filter_append, no_match_filter pre hpre, List.filter_cons,
    no_match_filter post hpost]
  simp [hm]


theorem setMatchLen_no_match (fs : List DynamicStructField) (n : Int)
    (h : ∀ f ∈ fs, f.match_length = false) :
    setMatchLen fs n = fs := by
  unfold setMatchLen
  rw [List.map_congr_left (g := fun f => f), List.map_id']
  intro f hf
  simp [h f hf]

theorem setMatchLen_split (pre post : List DynamicStructField)
    (m : DynamicStructField) (n : Int) (hm : m.match_length = true)
    (hpre : ∀ f ∈ pre, f.match_length = false)
    (hpost : ∀ f ∈ post, f.match_length = false) :
    setMatchLen (pre ++ m :: post) n = pre ++ { m with length := n } :: post := by
  have h1 : setMatchLen (pre ++ m :: post) n
      = setMatchLen pre n ++ setMatchLen (m :: post) n := by
    unfold setMatchLen
    exact List.map_append _ _ _
  rw [h1, setMatchLen_no_match pre n hpre]
  unfold setMatchLen
  rw [List.map_cons, if_pos hm, List.map_congr_left (g := fun f => f), List.map_id']
  intro f hf
  simp [hpost f hf]

theorem segs_append (xs ys : List DynamicStructField) :
    DynamicStruct.segs ⟨xs ++ ys⟩
      = DynamicStruct.segs ⟨xs⟩ ++ DynamicStruct.segs ⟨ys⟩ := by
  unfold DynamicStruct.segs
  exact List.map_append _ _ _

theorem one_match_resolution (pre post : List DynamicStructField)
    (m : DynamicStructField) (L : Int) (Sp Sq : Nat)
    (hm : m.match_length = true)
    (hpre : ∀ f ∈ pre, f.match_length = false)
    (hpost : ∀ f ∈ post, f.match_length = false)
    (hmc : (unitSize m.struct).isSome = true)
    (hSp : calcsize (DynamicStruct.segs ⟨pre⟩) = some Sp)
    (hSq : calcsize (DynamicStruct.segs ⟨post⟩) = some Sq) :
    DynamicStruct.set_match_length_unpack ⟨pre ++ m :: post⟩ L
      = (⟨pre ++ { m with length := L - ((Sp + Sq : Nat) : Int) } :: post⟩, none) := by
  unfold DynamicStruct.set_match_length_unpack
  simp only [one_match_filter pre post m hm hpre hpost, List.length_cons,
    List.length_nil]
  rw [if_neg (by omega), if_pos trivial]
  have hzero : setMatchLen (pre ++ m :: post) 0
      = pre ++ { m with length := 0 } :: post :=
    setMatchLen_split pre post m 0 hm hpre hpost
  rw [hzero]
  have hseg0 : segSize (((0 : Int), m.struct)) = some 0 := by
    rcases hw : unitSize m.struct with _ | w
    · rw [hw] at hmc; simp at hmc
    · simp [segSize, hw]
  have hsize : DynamicStruct.size ⟨pre ++ { m with length := 0 } :: post⟩
      = some (Sp + Sq) := by
    unfold DynamicStruct.size
    rw [show (⟨pre ++ { m with length := 0 } :: post⟩ : DynamicStruct).segs
        = DynamicStruct.segs ⟨pre⟩
          ++ (((0 : Int), m.struct)) :: DynamicStruct.segs ⟨post⟩ by
      unfold DynamicStruct.segs
      simp]
    rw [calcsize_append]
    have : calcsize ((((0 : Int), m.struct)) :: DynamicStruct.segs ⟨post⟩)
        = some (0 + Sq) := by
      unfold calcsize
      rw [hseg0, hSq]
    rw [this, hSp]
    simp
  rw [hsize]
  simp only
  rw [setMatchLen_split pre post { m with length := 0 }
    (L - ((Sp + Sq : Nat) : Int)) (by simpa using hm) hpre hpost]

theorem smlpGo_no_match (fs : List DynamicStructField)
    (h : ∀ f ∈ fs, f.match_length = false) :
    smlpGo fs = (fs, none) := by
  induction fs with
  | nil => rfl
  | cons f rest ih =>
    have hf := h f (List.mem_cons_self f rest)
    have hrest := ih (fun g hg => h g (List.mem_cons_of_mem f hg))
    unfold smlpGo
    rw [if_neg (by simp [hf]), hrest]

theorem smlpGo_last_match (pre : List DynamicStructField) (m : DynamicStructField)
    (payload : List Nat)
    (hpre : ∀ f ∈ pre, f.match_length = false)
    (hm : m.match_length = true) (hv : m.value = some (Value.bytes payload)) :
    smlpGo (pre ++ [m]) = (pre ++ [{ m with length := (payload.length : Int) }], none) := by
  induction pre with
  | nil =>
    simp only [List.nil_append]
    unfold smlpGo
    rw [if_pos hm]
    simp [pyLen, hv, smlpGo]
  | cons f rest ih =>
    have hf := hpre f (List.mem_cons_self f rest)
    have hrest := ih (fun g hg => hpre g (List.mem_cons_of_mem f hg))
    simp only [List.cons_append]
    unfold smlpGo
    rw [if_neg (by simp [hf]), hrest]

theorem unpack_of_resolution (hook : DynamicStruct → Bool) (d d1 : DynamicStruct)
    (buf : List Nat) (validate : Bool)
    (hres : DynamicStruct.set_match_length_unpack d (buf.length : Int) = (d1, none)) :
    DynamicStruct.unpack hook d buf validate =
      match structUnpack d1.segs buf with
      | none => (d1, some DSError.structError)
      | some vs =>
        let d2 : DynamicStruct := ⟨assignValues d1.fields vs⟩
        if validate && !(hook d2) then (d2, some DSError.validationFailed)
        else (d2, none) := by
  unfold DynamicStruct.unpack
  rw [hres]

theorem structUnpack_oneUnit (fs : List DynamicStructField) (buf : List Nat) (S : Nat)
    (hone : ∀ f ∈ fs, f.struct = 's' ∨ f.length = 1)
    (hS : calcsize (DynamicStruct.segs ⟨fs⟩) = some S) :
    structUnpack (DynamicStruct.segs ⟨fs⟩) buf = decodeGo (fs.map fieldUnit) buf := by
  unfold structUnpack
  rw [hS]
  rw [show DynamicStruct.segs ⟨fs⟩
    = fs.map (fun f => ((f.length, f.struct) : Int × Char)) from rfl]
  rw [oneUnit_segUnits fs hone]

theorem sumW_fieldUnits (fs : List DynamicStructField) (S : Nat)
    (hone : ∀ f ∈ fs, f.struct = 's' ∨ f.length = 1)
    (hS : calcsize (DynamicStruct.segs ⟨fs⟩) = some S) :
    sumW (fs.map fieldUnit) = S := by
  rw [← oneUnit_segUnits fs hone]
  exact sumW_calcsize _ S hS

theorem struct_eq_layoutSpec (d : DynamicStruct) : d.struct = layoutSpec d := by
  unfold DynamicStruct.struct layoutSpec DynamicStruct.endian_struct
  congr 2
  apply List.map_congr_left
  intro f _
  by_cases h : f.length = 1 <;> simp [h]

theorem calcsize_eq_impliedSizeSpec (fs : List DynamicStructField) :
    calcsize (DynamicStruct.segs ⟨fs⟩) = impliedSizeSpec ⟨fs⟩ := by
  induction fs with
  | nil => simp [DynamicStruct.segs, calcsize, impliedSizeSpec]
  | cons f rest ih =>
    rw [show DynamicStruct.segs ⟨f :: rest⟩
      = ((f.length, f.struct) : Int × Char) :: DynamicStruct.segs ⟨rest⟩ from rfl]
    unfold calcsize
    by_cases hv : (decide (0 ≤ f.length) && (unitSize f.struct).isSome) = true
    · simp only [Bool.and_eq_true, decide_eq_true_eq] at hv
      rcases hw : unitSize f.struct with _ | w
      · rw [hw] at hv; simp at hv
      · have hseg : segSize ((f.length, f.struct) : Int × Char)
            = some (f.length.toNat * w) := by
          simp [segSize, hw]
          omega
        rw [hseg, ih]
        unfold impliedSizeSpec
        by_cases hall : rest.all
            (fun f => decide (0 ≤ f.length) && (unitSize f.struct).isSome) = true
        · rw [if_pos hall, if_pos (by
            simp only [List.all_cons, hall, Bool.and_true]
            simp [hv.1, hw])]
          simp [hw]
        · rw [if_neg hall, if_neg (by
            simp only [List.all_cons]
            intro hcontra
            exact hall (by
              rcases Bool.and_eq_true _ _ |>.mp hcontra with ⟨_, h2⟩
              exact h2))]
    · have hseg : segSize ((f.length, f.struct) : Int × Char) = none := by
        simp only [Bool.and_eq_true, decide_eq_true_eq, not_and_or] at hv
        rcases hv with h1 | h2
        · rcases hw : unitSize f.struct with _ | w
          · simp [segSize, hw]
          · simp [segSize, hw]
            omega
        · rcases hw : unitSize f.struct with _ | w
          · simp [segSize, hw]
          · rw [hw] at h2; simp at h2
      rw [hseg]
      unfold impliedSizeSpec
      rw [if_neg (by
        simp only [List.all_cons]
        intro hcontra
        exact hv (Bool.and_eq_true _ _ |>.mp hcontra).1)]

/-! Frame lemmas for the heap model. -/

theorem Heap.get_set_ne (h : Heap) (i j : Nat) (f : DynamicStructField)
    (hne : j ≠ i) : (h.set i f).get j = h.get j := by
  rcases h with ⟨n, store⟩
  unfold Heap.set Heap.get
  simp only
  induction store with
  | nil => rfl
  | cons p rest ih =>
    simp only [List.map_cons]
    by_cases hp : p.1 = i
    · rw [if_pos hp]
      rw [List.find?_cons, List.find?_cons]
      have h1 : (decide (((i, f) : Nat × DynamicStructField).1 = j)) = false := by
        simp [Ne.symm hne]
      have h2 : (decide (p.1 = j)) = false := by
        simp [hp, Ne.symm hne]
      rw [h1, h2]
      exact ih
    · rw [if_neg hp]
      rw [List.find?_cons, List.find?_cons]
      by_cases hpj : p.1 = j
      · simp [hpj]
      · have h2 : (decide (p.1 = j)) = false := by simp [hpj]
        simp only [h2]
        exact ih

theorem writeFields_get_ne (ids : List Nat) (fs : List DynamicStructField)
    (h : Heap) (j : Nat) (hj : j ∉ ids) :
    (writeFields h ids fs).get j = h.get j := by
  induction ids generalizing h fs with
  | nil => rfl
  | cons i is ih =>
    cases fs with
    | nil => rfl
    | cons f ft =>
      have hji : j ≠ i := by
        intro hc; exact hj (hc ▸ List.mem_cons_self i is)
      have hjis : j ∉ is := fun hc => hj (List.mem_cons_of_mem i hc)
      unfold writeFields
      rw [ih ft (h.set i f) hjis, Heap.get_set_ne h i j f hji]

theorem runOp_frame (h : Heap) (ids : List Nat) (op : Op) (j : Nat)
    (hj : j ∉ ids) : (runOp h ids op).get j = h.get j := by
  cases op with
  | setf name v =>
    unfold runOp
    rcases readFields h ids with _ | fs
    · rfl
    · simp only
      rcases DynamicStruct.setattr ⟨fs⟩ name v with e | d
      · rfl
      · exact writeFields_get_ne ids d.fields h j hj
  | unpackOp buffer validate =>
    unfold runOp
    rcases readFields h ids with _ | fs
    · rfl
    · exact writeFields_get_ne ids _ h j hj
  | packOp =>
    unfold runOp
    rcases readFields h ids with _ | fs
    · rfl
    · exact writeFields_get_ne ids _ h j hj

theorem runOps_frame (ops : List Op) (h : Heap) (ids : List Nat) (j : Nat)
    (hj : j ∉ ids) : (runOps h ids ops).get j = h.get j := by
  induction ops generalizing h with
  | nil => rfl
  | cons op rest ih =>
    unfold runOps
    rw [ih (runOp h ids op), runOp_frame h ids op j hj]

theorem initH_nextId_le (tmpl : List Nat) (h : Heap) :
    h.nextId ≤ (initH h tmpl).1.nextId := by
  induction tmpl generalizing h with
  | nil => exact Nat.le_refl _
  | cons i is ih =>
    unfold initH
    rcases hg : h.get i with _ | f
    · simpa using ih h
    · simp only
      have h1 := ih (h.alloc f).1
      have h2 : (h.alloc f).1.nextId = h.nextId + 1 := rfl
      omega

theorem initH_ids_range (tmpl : List Nat) (h : Heap) :
    ∀ j ∈ (initH h tmpl).2, h.nextId ≤ j ∧ j < (initH h tmpl).1.nextId := by
  induction tmpl generalizing h with
  | nil => simp [initH]
  | cons i is ih =>
    intro j hj
    unfold initH at hj ⊢
    rcases hg : h.get i with _ | f <;> rw [hg] at hj
    · simp only at hj ⊢
      exact ih h j hj
    · simp only [List.mem_cons] at hj
      simp only
      have h2 : (h.alloc f).1.nextId = h.nextId + 1 := rfl
      have h3 : (h.alloc f).2 = h.nextId := rfl
      rcases hj with hj | hj
      · constructor
        · omega
        · have := initH_nextId_le is (h.alloc f).1
          omega
      · have := ih (h.alloc f).1 j hj
        omega

/-!
The claim theorems.  Each is stated against the embedding above; the
counterexample theorems evaluate the embedding at explicit inputs.
-/

/-- C1: the round-trip claim fails because `pack` never produces bytes.
On the specification's example message type restricted to its two
concrete fields (hello: 1-byte unsigned default 1; world: 1-byte
unsigned), with no match-length field, constructed with world = 1,
`pack` raises NameError for the nonexistent method `_set_match_length`
(and leaves the instance unchanged), so `unpack(pack(m))` can never
reproduce `values(m)`. -/
theorem c1_pack_always_raises :
    (DynamicStruct.init
        [{ name := "hello", struct := 'B', default := Value.int 1 },
         { name := "world", struct := 'B' }]
        [("world", Value.int 1)]).map DynamicStruct.pack
      = .ok
          (⟨[{ name := "hello", struct := 'B', default := Value.int 1 },
             { name := "world", struct := 'B', value := some (Value.int 1) }]⟩,
           some (DSError.nameError "_set_match_length")) := by
  rfl

/-- C2: `pack` on the full example schema (hello: 1-byte unsigned
default 1, world: 1-byte unsigned, payload: byte sequence with
match-length), constructed with world = 1 and payload = b"hi", raises
NameError for `_set_match_length` instead of returning the 4-byte
sequence [1, 1, 104, 105]: the resolution, hook, and serialization steps
of the claim are never reached. -/
theorem c2_pack_example_raises :
    (DynamicStruct.init
        [{ name := "hello", struct := 'B', default := Value.int 1 },
         { name := "world", struct := 'B' },
         { name := "payload", struct := 's', match_length := true }]
        [("world", Value.int 1), ("payload", Value.bytes [104, 105])]).map
        DynamicStruct.pack
      = .ok
          (⟨[{ name := "hello", struct := 'B', default := Value.int 1 },
             { name := "world", struct := 'B', value := some (Value.int 1) },
             { name := "payload", struct := 's', match_length := true,
               value := some (Value.bytes [104, 105]) }]⟩,
           some (DSError.nameError "_set_match_length")) := by
  rfl

/-- C5 counterexample: a declared field whose value has been set to the
int 0, with default 5, reads back as 5 rather than the stored 0 —
`__getattr__` evaluates `value or default` and 0 is falsy, so the claim
that a set value is returned "whatever that value is, including 0" is
false at this input. -/
theorem c5_cex :
    DynamicStruct.getattr
        ⟨[{ name := "a", default := Value.int 5, value := some (Value.int 0) }]⟩ "a"
      = .ok (Value.int 5) ∧
    DynamicStruct.getattr
        ⟨[{ name := "a", default := Value.int 5, value := some (Value.int 0) }]⟩ "a"
      ≠ .ok (Value.int 0) := by
  constructor
  · rfl
  · intro h
    rw [show DynamicStruct.getattr
        ⟨[{ name := "a", default := Value.int 5, value := some (Value.int 0) }]⟩ "a"
      = .ok (Value.int 5) from rfl] at h
    injection h with h1
    injection h1 with h2
    exact absurd h2 (by decide)

/-- C5 (amended): reading a declared field returns the stored value when
one is set and truthy, and the default when the value is unset or falsy
(0, False, empty bytes); and for a name outside the declared field set,
reading, writing, and passing it as a construction keyword each raise
the unknown-field NameError. -/
theorem c5_get_set_unknown (d : DynamicStruct) (n : String) :
    (∀ f, findField d n = some f → f.value = none →
      DynamicStruct.getattr d n = .ok f.default) ∧
    (∀ f v, findField d n = some f → f.value = some v → v.truthy = true →
      DynamicStruct.getattr d n = .ok v) ∧
    (∀ f v, findField d n = some f → f.value = some v → v.truthy = false →
      DynamicStruct.getattr d n = .ok f.default) ∧
    (findField d n = none →
      DynamicStruct.getattr d n = .error (DSError.nameError n) ∧
      (∀ v, DynamicStruct.setattr d n v = .error (DSError.nameError n)) ∧
      (∀ v, DynamicStruct.init d.fields [(n, v)]
        = .error (DSError.nameError n))) := by
  refine ⟨?_, ?_, ?_, ?_⟩
  · intro f hf hv
    simp [DynamicStruct.getattr, hf, hv]
  · intro f v hf hv ht
    simp [DynamicStruct.getattr, hf, hv, ht]
  · intro f v hf hv ht
    simp [DynamicStruct.getattr, hf, hv, ht]
  · intro hnone
    have hany : (d.fields.any (fun f => f.name = n)) = false := by
      rw [List.any_eq_false]
      intro f hf
      have := List.find?_eq_none.mp hnone f hf
      simpa using this
    have hset : ∀ v, DynamicStruct.setattr ⟨d.fields⟩ n v
        = .error (DSError.nameError n) := by
      intro v
      unfold DynamicStruct.setattr
      rw [if_neg (by simp [hany])]
    refine ⟨?_, fun v => hset v, ?_⟩
    · simp [DynamicStruct.getattr, hnone]
    · intro v
      unfold DynamicStruct.init
      rw [List.foldlM_cons, hset v]
      rfl

/-- C5 witness for the amended theorem: on a one-field instance, a
truthy stored value 7 is returned as is, and the undeclared name "zz"
raises NameError on read. -/
theorem c5_get_set_unknown_witness :
    DynamicStruct.getattr
        ⟨[{ name := "a", default := Value.int 5, value := some (Value.int 7) }]⟩ "a"
      = .ok (Value.int 7) ∧
    DynamicStruct.getattr
        ⟨[{ name := "a", default := Value.int 5, value := some (Value.int 7) }]⟩ "zz"
      = .error (DSError.nameError "zz") :=
  ⟨(c5_get_set_unknown
      ⟨[{ name := "a", default := Value.int 5, value := some (Value.int 7) }]⟩
      "a").2.1 { name := "a", default := Value.int 5, value := some (Value.int 7) }
      (Value.int 7) (by decide) rfl (by decide),
   ((c5_get_set_unknown
      ⟨[{ name := "a", default := Value.int 5, value := some (Value.int 7) }]⟩
      "zz").2.2.2 (by decide)).1⟩

/-- C7: declaring more than one match-length field makes unpack fail
with the bad-schema ValueError on every buffer, every validate flag and
every hook, before any state change, while constructing an instance with
no keyword arguments succeeds. -/
theorem c7_two_match_length_bad_schema (fields : List DynamicStructField)
    (buf : List Nat) (validate : Bool) (hook : DynamicStruct → Bool)
    (h : 1 < (fields.filter (fun f => f.match_length)).length) :
    DynamicStruct.unpack hook ⟨fields⟩ buf validate
        = (⟨fields⟩, some DSError.badSchema) ∧
    DynamicStruct.init fields [] = .ok ⟨fields⟩ := by
  have hres : DynamicStruct.set_match_length_unpack ⟨fields⟩ (buf.length : Int)
      = (⟨fields⟩, some DSError.badSchema) := by
    unfold DynamicStruct.set_match_length_unpack
    rw [if_pos h]
  constructor
  · unfold DynamicStruct.unpack
    rw [hres]
  · rfl

/-- C7 witness: a two-field schema both marked match-length fails with
bad schema on the concrete buffer [1, 2] under the default hook, and
plain construction succeeds. -/
theorem c7_two_match_length_bad_schema_witness :
    DynamicStruct.unpack DynamicStruct.is_valid
        ⟨[{ name := "a", struct := 's', match_length := true },
          { name := "b", struct := 's', match_length := true }]⟩ [1, 2] true
      = (⟨[{ name := "a", struct := 's', match_length := true },
           { name := "b", struct := 's', match_length := true }]⟩,
         some DSError.badSchema) ∧
    DynamicStruct.init
        [{ name := "a", struct := 's', match_length := true },
         { name := "b", struct := 's', match_length := true }] []
      = .ok ⟨[{ name := "a", struct := 's', match_length := true },
              { name := "b", struct := 's', match_length := true }]⟩ :=
  c7_two_match_length_bad_schema
    [{ name := "a", struct := 's', match_length := true },
     { name := "b", struct := 's', match_length := true }]
    [1, 2] true DynamicStruct.is_valid (by decide)

/-- C9: the derived layout string is exactly the byte-order marker
followed by each field's repeat count (omitted exactly when it is 1) and
encoding character in declaration order, and the derived size is the
byte length that layout implies under little-endian packing with no
padding; both are pure functions of the instance state, so reading them
mutates no field. -/
theorem c9_layout_and_size (d : DynamicStruct) :
    d.struct = layoutSpec d ∧ d.size = impliedSizeSpec d := by
  refine ⟨struct_eq_layoutSpec d, ?_⟩
  rcases d with ⟨fs⟩
  exact calcsize_eq_impliedSizeSpec fs

/-- C6: on a buffer the decoder accepts (witnessed by the validate=false
run succeeding), unpack with validate=true mutates the fields to exactly
the same decoded values as the validate=false run and fails with the
validation error precisely when the hook rejects the populated instance;
the decoded values stay in place either way (no rollback). -/
theorem c6_validation_gating (hook : DynamicStruct → Bool) (d : DynamicStruct)
    (buf : List Nat)
    (h : (DynamicStruct.unpack hook d buf false).2 = none) :
    (DynamicStruct.unpack hook d buf true).1
        = (DynamicStruct.unpack hook d buf false).1 ∧
    (DynamicStruct.unpack hook d buf true).2
        = (if hook (DynamicStruct.unpack hook d buf false).1 then none
           else some DSError.validationFailed) := by
  rcases hres : DynamicStruct.set_match_length_unpack d (buf.length : Int)
    with ⟨d1, e⟩
  cases e with
  | some e2 =>
    have hbad : DynamicStruct.unpack hook d buf false = (d1, some e2) := by
      unfold DynamicStruct.unpack
      rw [hres]
    rw [hbad] at h
    simp at h
  | none =>
    have ht := unpack_of_resolution hook d d1 buf true hres
    have hf := unpack_of_resolution hook d d1 buf false hres
    rcases hsu : structUnpack d1.segs buf with _ | vs
    · rw [hsu] at ht hf
      rw [hf] at h
      simp at h
    · rw [hsu] at ht hf
      simp only at ht hf
      rw [ht, hf]
      simp only [Bool.false_and, Bool.true_and]
      by_cases hv : hook ⟨assignValues d1.fields vs⟩
      · simp [hv]
      · simp [hv]

/-- C6 witness: on a one-byte schema and the exact-size buffer [3], with
an always-rejecting hook, the validate=true run holds the same decoded
fields as the validate=false run and fails with the validation error. -/
theorem c6_validation_gating_witness :
    (DynamicStruct.unpack (fun _ => false) ⟨[{ name := "a" }]⟩ [3] true).1
        = (DynamicStruct.unpack (fun _ => false) ⟨[{ name := "a" }]⟩ [3] false).1 ∧
    (DynamicStruct.unpack (fun _ => false) ⟨[{ name := "a" }]⟩ [3] true).2
        = (if (fun (_ : DynamicStruct) => false)
              (DynamicStruct.unpack (fun _ => false) ⟨[{ name := "a" }]⟩ [3] false).1
           then none else some DSError.validationFailed) :=
  c6_validation_gating (fun _ => false) ⟨[{ name := "a" }]⟩ [3] (by decide)

/-- C8: with exactly one match-length field, unpack's length-resolution
step sets that field's repeat count to the buffer length minus the
aggregate size of the non-match-length fields, and when that difference
is negative the unpack call fails with the malformed-buffer (struct)
error. -/
theorem c8_match_length_from_buffer (pre post : List DynamicStructField)
    (m : DynamicStructField) (buf : List Nat) (validate : Bool)
    (hook : DynamicStruct → Bool) (S : Nat)
    (hm : m.match_length = true)
    (hpre : ∀ f ∈ pre, f.match_length = false)
    (hpost : ∀ f ∈ post, f.match_length = false)
    (hmc : (unitSize m.struct).isSome = true)
    (hS : calcsize (DynamicStruct.segs ⟨pre ++ post⟩) = some S) :
    DynamicStruct.set_match_length_unpack ⟨pre ++ m :: post⟩ (buf.length : Int)
        = (⟨pre ++ { m with length := (buf.length : Int) - (S : Int) } :: post⟩, none) ∧
    ((buf.length : Int) - (S : Int) < 0 →
      DynamicStruct.unpack hook ⟨pre ++ m :: post⟩ buf validate
        = (⟨pre ++ { m with length := (buf.length : Int) - (S : Int) } :: post⟩,
           some DSError.structError)) := by
  rw [segs_append] at hS
  rw [calcsize_append] at hS
  rcases hSp : calcsize (DynamicStruct.segs ⟨pre⟩) with _ | Sp <;> rw [hSp] at hS
  · simp at hS
  · rcases hSq : calcsize (DynamicStruct.segs ⟨post⟩) with _ | Sq <;> rw [hSq] at hS
    · simp at hS
    · simp only [Option.some.injEq] at hS
      have hres := one_match_resolution pre post m (buf.length : Int) Sp Sq
        hm hpre hpost hmc hSp hSq
      rw [hS] at hres
      refine ⟨hres, ?_⟩
      intro hneg
      rw [unpack_of_resolution hook _ _ buf validate hres]
      have hnone : structUnpack
          (DynamicStruct.segs
            ⟨pre ++ { m with length := (buf.length : Int) - (S : Int) } :: post⟩)
          buf = none := by
        unfold structUnpack
        rw [segs_append]
        rw [calcsize_append]
        have hsegm : segSize (((buf.length : Int) - (S : Int), m.struct)) = none := by
          rcases hw : unitSize m.struct with _ | w
          · simp [segSize, hw]
          · simp [segSize, hw]
            omega
        have : calcsize (DynamicStruct.segs
            ⟨({ m with length := (buf.length : Int) - (S : Int) }
              : DynamicStructField) :: post⟩) = none := by
          rw [show DynamicStruct.segs
              ⟨({ m with length := (buf.length : Int) - (S : Int) }
                : DynamicStructField) :: post⟩
            = (((buf.length : Int) - (S : Int), m.struct))
                :: DynamicStruct.segs ⟨post⟩ from rfl]
          unfold calcsize
          rw [hsegm]
        rw [this]
        rcases calcsize (DynamicStruct.segs ⟨pre⟩) with _ | x <;> simp
      rw [hnone]

/-- C8 witness: a schema with one 1-byte static field and one
match-length byte-sequence field, unpacked from the empty buffer: the
derived repeat count is 0 - 1 = -1 and the call fails with the
malformed-buffer error, the negative repeat count left in place. -/
theorem c8_match_length_from_buffer_witness :
    DynamicStruct.unpack DynamicStruct.is_valid
        ⟨[{ name := "a" },
          { name := "p", struct := 's', match_length := true }]⟩ [] true
      = (⟨[{ name := "a" },
           { name := "p", struct := 's', match_length := true, length := -1 }]⟩,
         some DSError.structError) := by
  have h := c8_match_length_from_buffer [{ name := "a" }] []
      { name := "p", struct := 's', match_length := true } [] true
      DynamicStruct.is_valid 1 rfl (by decide) (by decide) (by decide) (by decide)
  exact h.2 (by decide)

/-- C3 counterexample: the schema [a: code B repeat 2, b: code B repeat
1] and the exact-size buffer [1, 2, 3].  The layout decodes three units
(1, 2, 3) and the unit at field b's position is the final byte 3, but
the positional zip assigns b the second unit: reading b afterwards gives
2, not 3, so the claimed per-field assignment fails for a repeat count
greater than 1. -/
theorem c3_cex :
    DynamicStruct.unpack DynamicStruct.is_valid
        ⟨[{ name := "a", length := 2 }, { name := "b" }]⟩ [1, 2, 3] true
      = (⟨[{ name := "a", length := 2, value := some (Value.int 1) },
           { name := "b", value := some (Value.int 2) }]⟩, none) ∧
    DynamicStruct.getattr
        (DynamicStruct.unpack DynamicStruct.is_valid
          ⟨[{ name := "a", length := 2 }, { name := "b" }]⟩ [1, 2, 3] true).1 "b"
      = .ok (Value.int 2) := by
  constructor
  · rfl
  · rfl

/-- C3 (amended): for a message type with no match-length field in which
every field decodes to exactly one unit (byte-sequence fields, or repeat
exactly 1), unpacking a buffer of exactly the computed size succeeds
under the default hook and assigns each field its own decoded unit, as
computed by the spec-side per-field decoder `specDecode`; unpacking a
buffer of any other length fails with the malformed-buffer (struct)
error.  (For a numeric field with repeat greater than 1 the decoded
units outnumber the fields and the positional zip misassigns them; see
the counterexample.) -/
theorem c3_decode_assignment (fields : List DynamicStructField)
    (buf : List Nat) (validate : Bool) (S : Nat)
    (hnm : ∀ f ∈ fields, f.match_length = false)
    (hone : ∀ f ∈ fields, f.struct = 's' ∨ f.length = 1)
    (hS : DynamicStruct.size ⟨fields⟩ = some S) :
    (buf.length = S →
      ∃ gs, specDecode fields buf = some gs ∧
        DynamicStruct.unpack DynamicStruct.is_valid ⟨fields⟩ buf validate
          = (⟨gs⟩, none)) ∧
    (buf.length ≠ S →
      (DynamicStruct.unpack DynamicStruct.is_valid ⟨fields⟩ buf validate).2
        = some DSError.structError) := by
  have hres := no_match_resolution fields (buf.length : Int) hnm
  have hS' : calcsize (DynamicStruct.segs ⟨fields⟩) = some S := hS
  have hsu := structUnpack_oneUnit fields buf S hone hS'
  have hsw := sumW_fieldUnits fields S hone hS'
  have hrw := unpack_of_resolution DynamicStruct.is_valid ⟨fields⟩ ⟨fields⟩
    buf validate hres
  constructor
  · intro hlen
    have hsome : (decodeGo (fields.map fieldUnit) buf).isSome = true :=
      (decodeGo_isSome _ _).mpr (hsw ▸ hlen)
    rcases hvs : decodeGo (fields.map fieldUnit) buf with _ | vs
    · rw [hvs] at hsome
      simp at hsome
    · refine ⟨assignValues fields vs, ?_, ?_⟩
      · rw [specDecode_eq_decodeGo, hvs]
        rfl
      · rw [hrw, hsu, hvs]
        simp [DynamicStruct.is_valid]
  · intro hlen
    have hnone : decodeGo (fields.map fieldUnit) buf = none := by
      rcases hvs : decodeGo (fields.map fieldUnit) buf with _ | vs
      · rfl
      · exfalso
        have : (decodeGo (fields.map fieldUnit) buf).isSome = true := by
          rw [hvs]; rfl
        rw [decodeGo_isSome, hsw] at this
        exact hlen this
    rw [hrw, hsu, hnone]

/-- C3 witness for the amended theorem: schema [a: B, b: B].  The
exact-size buffer [7, 9] decodes with a = 7 and b = 9 via the spec-side
decoder, and the wrong-length buffer [7, 9, 11] fails with the
malformed-buffer error. -/
theorem c3_decode_assignment_witness :
    (∃ gs, specDecode [{ name := "a" }, { name := "b" }] [7, 9] = some gs ∧
        DynamicStruct.unpack DynamicStruct.is_valid
            ⟨[{ name := "a" }, { name := "b" }]⟩ [7, 9] true
          = (⟨gs⟩, none)) ∧
    (DynamicStruct.unpack DynamicStruct.is_valid
        ⟨[{ name := "a" }, { name := "b" }]⟩ [7, 9, 11] true).2
      = some DSError.structError :=
  ⟨(c3_decode_assignment [{ name := "a" }, { name := "b" }] [7, 9] true 2
      (by decide) (by decide) (by decide)).1 rfl,
   (c3_decode_assignment [{ name := "a" }, { name := "b" }] [7, 9, 11] true 2
      (by decide) (by decide) (by decide)).2 (by decide)⟩

/-- C4 counterexample: schema [a: code B repeat 2, p: byte sequence with
match-length, value b"hi"].  After resolution the size is 4 = static 2 +
2, and the buffer [1, 2, 3, 4] has exactly that size, yet unpack leaves
p holding the int 2 (the second decoded unit), not the trailing two
bytes [3, 4]: the a field expands to two units and the positional zip
misassigns everything after it. -/
theorem c4_cex :
    DynamicStruct.unpack DynamicStruct.is_valid
        ⟨[{ name := "a", length := 2 },
          { name := "p", struct := 's', match_length := true,
            value := some (Value.bytes [104, 105]) }]⟩ [1, 2, 3, 4] true
      = (⟨[{ name := "a", length := 2, value := some (Value.int 1) },
           { name := "p", struct := 's', length := 2, match_length := true,
             value := some (Value.int 2) }]⟩, none) ∧
    DynamicStruct.getattr
        (DynamicStruct.unpack DynamicStruct.is_valid
          ⟨[{ name := "a", length := 2 },
            { name := "p", struct := 's', match_length := true,
              value := some (Value.bytes [104, 105]) }]⟩ [1, 2, 3, 4] true).1 "p"
      = .ok (Value.int 2) := by
  constructor
  · rfl
  · rfl

/-- C4 (amended): for a message type whose last field is the single
match-length byte-sequence field with value `payload`, and whose other
fields each decode to exactly one unit: resolving the match length for
packing sets that field's repeat to `len(payload)` and the size becomes
the static size plus `len(payload)`; and unpacking a buffer of exactly
that size succeeds and assigns the trailing `len(payload)` bytes of the
buffer, unchanged, to the match-length field. -/
theorem c4_match_length_payload (pre : List DynamicStructField)
    (m : DynamicStructField) (payload buf : List Nat) (S : Nat)
    (hm : m.match_length = true) (hms : m.struct = 's')
    (hmv : m.value = some (Value.bytes payload))
    (hpre : ∀ f ∈ pre, f.match_length = false)
    (hone : ∀ f ∈ pre, f.struct = 's' ∨ f.length = 1)
    (hS : calcsize (DynamicStruct.segs ⟨pre⟩) = some S) :
    (DynamicStruct.set_match_length_pack ⟨pre ++ [m]⟩
        = (⟨pre ++ [{ m with length := (payload.length : Int) }]⟩, none) ∧
     DynamicStruct.size ⟨pre ++ [{ m with length := (payload.length : Int) }]⟩
        = some (S + payload.length)) ∧
    (buf.length = S + payload.length →
      ∃ pre2,
        DynamicStruct.unpack DynamicStruct.is_valid ⟨pre ++ [m]⟩ buf true
          = (⟨pre2 ++ [{ m with
                length := (payload.length : Int)
                value := some (Value.bytes (buf.drop S)) }]⟩, none) ∧
        (buf.drop S).length = payload.length) := by
  have hmc : (unitSize m.struct).isSome = true := by rw [hms]; rfl
  have hsegm : DynamicStruct.segs
      ⟨[({ m with length := (payload.length : Int) } : DynamicStructField)]⟩
      = [((payload.length : Int), m.struct)] := rfl
  have hcsm : calcsize [(((payload.length : Nat) : Int), m.struct)]
      = some payload.length := by
    have h1 : segSize (((payload.length : Nat) : Int), m.struct)
        = some payload.length := by
      simp [segSize, hms, unitSize]
    unfold calcsize
    rw [h1]
    simp [calcsize]
  have ha2 : DynamicStruct.size
      ⟨pre ++ [{ m with length := (payload.length : Int) }]⟩
      = some (S + payload.length) := by
    unfold DynamicStruct.size
    rw [segs_append, calcsize_append, hS, hsegm, hcsm]
  refine ⟨⟨?_, ha2⟩, ?_⟩
  · unfold DynamicStruct.set_match_length_pack
    rw [smlpGo_last_match pre m payload hpre hm hmv]
  · intro hlen
    have hres0 := one_match_resolution pre [] m (buf.length : Int) S 0
      hm hpre (by intro f hf; simp at hf) hmc hS rfl
    have hcast : ((buf.length : Int) - ((S + 0 : Nat) : Int))
        = ((payload.length : Nat) : Int) := by
      rw [hlen]; push_cast; ring
    rw [hcast] at hres0
    have hrw := unpack_of_resolution DynamicStruct.is_valid _ _ buf true hres0
    have hunits : List.flatten
        ((DynamicStruct.segs
          ⟨pre ++ ({ m with length := (payload.length : Int) }
            : DynamicStructField) :: []⟩).map segUnits)
        = pre.map fieldUnit ++ [('s', payload.length)] := by
      rw [segs_append, List.map_append, List.flatten_append]
      rw [show DynamicStruct.segs ⟨pre⟩
        = pre.map (fun f => ((f.length, f.struct) : Int × Char)) from rfl]
      rw [oneUnit_segUnits pre hone]
      congr 1
      simp [DynamicStruct.segs, segUnits, hms]
    have hcs : calcsize (DynamicStruct.segs
        ⟨pre ++ ({ m with length := (payload.length : Int) }
          : DynamicStructField) :: []⟩) = some (S + payload.length) := ha2
    have hsw := sumW_fieldUnits pre S hone hS
    have htake : (buf.take S).length = S := by
      rw [List.length_take]; omega
    have hsome : (decodeGo (pre.map fieldUnit) (buf.take S)).isSome = true :=
      (decodeGo_isSome _ _).mpr (by rw [htake, hsw])
    rcases hvs : decodeGo (pre.map fieldUnit) (buf.take S) with _ | vs
    · rw [hvs] at hsome
      simp at hsome
    · have hsnoc := decodeGo_snoc_s (pre.map fieldUnit) payload.length buf vs
        (by rw [hsw]; exact hvs) (by rw [hsw]; exact hlen)
      rw [hsw] at hsnoc
      have hlen_vs : vs.length = pre.length := by
        have := decodeGo_length _ _ _ hvs
        simpa using this
      have hsu2 : structUnpack (DynamicStruct.segs
          ⟨pre ++ ({ m with length := (payload.length : Int) }
            : DynamicStructField) :: []⟩) buf
          = some (vs ++ [Value.bytes (buf.drop S)]) := by
        unfold structUnpack
        rw [hcs, hunits]
        exact hsnoc
      rw [hsu2] at hrw
      simp only [DynamicStruct.is_valid, Bool.not_true, Bool.and_false,
        Bool.false_eq_true, if_false] at hrw
      refine ⟨assignValues pre vs, ?_, ?_⟩
      · rw [hrw]
        have : assignValues
            (pre ++ ({ m with length := (payload.length : Int) }
              : DynamicStructField) :: []) (vs ++ [Value.bytes (buf.drop S)])
            = assignValues pre vs
              ++ [{ m with
                    length := (payload.length : Int)
                    value := some (Value.bytes (buf.drop S)) }] := by
          rw [assignValues_append pre _ vs _ hlen_vs]
          rfl
        rw [this]
      · rw [List.length_drop]
        omega

/-- C4 witness for the amended theorem: schema [a: 1-byte unsigned,
p: byte-sequence match-length with value b"hi"].  Pack-side resolution
sets p's repeat to 2 and the size to 1 + 2 = 3; unpacking the 3-byte
buffer [9, 3, 4] stores the trailing bytes [3, 4] on p unchanged. -/
theorem c4_match_length_payload_witness :
    (DynamicStruct.set_match_length_pack
        ⟨[{ name := "a" },
          { name := "p", struct := 's', match_length := true,
              value := some (Value.bytes [104, 105]) }]⟩
      = (⟨[{ name := "a" },
           { name := "p", struct := 's', match_length := true, length := 2,
               value := some (Value.bytes [104, 105]) }]⟩, none) ∧
     DynamicStruct.size
        ⟨[{ name := "a" },
          { name := "p", struct := 's', match_length := true, length := 2,
              value := some (Value.bytes [104, 105]) }]⟩ = some 3) ∧
    (∃ pre2,
      DynamicStruct.unpack DynamicStruct.is_valid
          ⟨[{ name := "a" },
            { name := "p", struct := 's', match_length := true,
                value := some (Value.bytes [104, 105]) }]⟩ [9, 3, 4] true
        = (⟨pre2 ++ [{ name := "p", struct := 's', match_length := true,
                         length := 2,
                         value := some (Value.bytes [3, 4]) }]⟩, none) ∧
      ([3, 4] : List Nat).length = 2) := by
  have h := c4_match_length_payload [{ name := "a" }]
      { name := "p", struct := 's', match_length := true,
          value := some (Value.bytes [104, 105]) }
      [104, 105] [9, 3, 4] 1 rfl rfl rfl (by decide) (by decide) (by decide)
  exact ⟨h.1, h.2 (by decide)⟩

/-- C10: instances own private clones of the field records.  Starting
from a heap holding the class-level template cells, constructing two
instances in sequence and then running any sequence of field
assignments, unpack calls, and pack calls on the first instance leaves
every template cell and every cell of the second instance exactly as it
was. -/
theorem c10_instance_isolation (h0 h1 h2 : Heap) (tmpl idsA idsB : List Nat)
    (ops : List Op) (j : Nat)
    (htmpl : ∀ i ∈ tmpl, i < h0.nextId)
    (hA : initH h0 tmpl = (h1, idsA))
    (hB : initH h1 tmpl = (h2, idsB))
    (hj : j ∈ tmpl ∨ j ∈ idsB) :
    (runOps h2 idsA ops).get j = h2.get j := by
  apply runOps_frame
  intro hjA
  have hrangeA := initH_ids_range tmpl h0 j
  rw [hA] at hrangeA
  have hrA : h0.nextId ≤ j ∧ j < h1.nextId := hrangeA hjA
  rcases hj with hj | hj
  · have := htmpl j hj
    omega
  · have hrangeB := initH_ids_range tmpl h1 j
    rw [hB] at hrangeB
    have hrB : h1.nextId ≤ j ∧ j < h2.nextId := hrangeB hj
    omega

/-- C10 witness: one template cell (id 0) in a heap with counter 1; the
first instance clones it into cell 1, the second into cell 2; a field
assignment, an unpack and a pack on the first instance leave the
template cell 0 and the second instance's cell 2 unchanged. -/
theorem c10_instance_isolation_witness :
    (runOps
        ⟨3, [(2, { name := "a" }), (1, { name := "a" }), (0, { name := "a" })]⟩
        [1] [Op.setf "a" (Value.int 7), Op.unpackOp [5] true, Op.packOp]).get 0
      = (⟨3, [(2, { name := "a" }), (1, { name := "a" }),
              (0, { name := "a" })]⟩ : Heap).get 0 ∧
    (runOps
        ⟨3, [(2, { name := "a" }), (1, { name := "a" }), (0, { name := "a" })]⟩
        [1] [Op.setf "a" (Value.int 7), Op.unpackOp [5] true, Op.packOp]).get 2
      = (⟨3, [(2, { name := "a" }), (1, { name := "a" }),
              (0, { name := "a" })]⟩ : Heap).get 2 :=
  ⟨c10_instance_isolation ⟨1, [(0, { name := "a" })]⟩
      ⟨2, [(1, { name := "a" }), (0, { name := "a" })]⟩
      ⟨3, [(2, { name := "a" }), (1, { name := "a" }), (0, { name := "a" })]⟩
      [0] [1] [2]
      [Op.setf "a" (Value.int 7), Op.unpackOp [5] true, Op.packOp] 0
      (by decide) (by decide) (by decide) (Or.inl (by decide)),
   c10_instance_isolation ⟨1, [(0, { name := "a" })]⟩
      ⟨2, [(1, { name := "a" }), (0, { name := "a" })]⟩
      ⟨3, [(2, { name := "a" }), (1, { name := "a" }), (0, { name := "a" })]⟩
      [0] [1] [2]
      [Op.setf "a" (Value.int 7), Op.unpackOp [5] true, Op.packOp] 2
      (by decide) (by decide) (by decide) (Or.inr (by decide))⟩
